import Mathlib

/-!
Shallow embedding of the three message-server variants of this repository:
`src/server.js` (namespace `ServerJs`), `src/unnamed/part_000` (namespace
`Part000`) and `src/unnamed/part_001` (namespace `Part001`).

Modelling conventions, shared by all three variants:
* uuidv4 ids are modelled as fresh naturals drawn from a per-state counter
  (`nextId`); `new Date().toISOString()` timestamps as a strictly increasing
  per-state natural clock (`clock`).  Both are opaque fresh tokens in the
  source; only freshness and monotonicity are used.
* JSON field values arriving in a request body are modelled by `JsVal`
  (string / number / boolean / null), with `none : Option JsVal` standing
  for an absent (`undefined`) field, so that JavaScript truthiness and
  `typeof` checks can be translated faithfully.
* JS string primitives `trim`, `toLowerCase`, `includes` are modelled
  character-wise (`jsTrim`, `toLowerCase`, `strIncludes`); `toLowerCase`
  lowers ASCII letters, which is what the banned-word checks rely on.
* Filesystem side effects (multer storage, `fs.unlinkSync`) and the
  rate-limiter middleware are outside the modelled state; the `urls` field
  computed by `extractUrls` is a pure function of the body text and is not
  read by any modelled endpoint, so it is omitted from the message record.
-/

/-- A JavaScript JSON value as far as the validation code inspects it. -/
inductive JsVal
  | vstr (s : String)
  | vnum (n : Int)
  | vbool (b : Bool)
  | vnull
deriving DecidableEq

/-- JavaScript truthiness: `""`, `0`, `false`, `null` are falsy. -/
def JsVal.falsy : JsVal → Bool
  | .vstr s => s == ""
  | .vnum n => n == 0
  | .vbool b => !b
  | .vnull => true

/-- Truthiness of a possibly absent field (`undefined` is falsy). -/
def jsOptFalsy : Option JsVal → Bool
  | none => true
  | some v => v.falsy

/-- The whitespace class used by `String.prototype.trim`. -/
def jsWs (c : Char) : Bool :=
  c == ' ' || c == '\t' || c == '\n' || c == '\r' || c == '\x0b' || c == '\x0c'

/-- Model of `String.prototype.trim`: strip leading and trailing whitespace. -/
def jsTrim (s : String) : String :=
  ⟨((s.data.dropWhile jsWs).reverse.dropWhile jsWs).reverse⟩

/-- Model of `String.prototype.toLowerCase` (ASCII letters). -/
def toLowerCase (s : String) : String :=
  ⟨s.data.map Char.toLower⟩

/-- Does `p` start the character list `l`? -/
def charsStartWith : List Char → List Char → Bool
  | [], _ => true
  | _ :: _, [] => false
  | p :: ps, c :: cs => p == c && charsStartWith ps cs

/-- Does `pat` occur as a contiguous run inside `l`? -/
def charsContain (pat : List Char) : List Char → Bool
  | [] => pat.isEmpty
  | c :: cs => charsStartWith pat (c :: cs) || charsContain pat cs

/-- Model of `String.prototype.includes`. -/
def strIncludes (s pat : String) : Bool :=
  charsContain pat.data s.data

/-- Model of `String.prototype.endsWith` (used on lower-cased file names). -/
def strEndsWith (s suf : String) : Bool :=
  charsStartWith suf.data.reverse s.data.reverse

/-- `parseInt(q) || dflt`: an absent/unparseable value and `0` both fall back. -/
def resolveQueryNat (q : Option Nat) (dflt : Nat) : Nat :=
  match q with
  | none => dflt
  | some n => if n = 0 then dflt else n

/-- Shape of the `/api/stats` JSON payload (identical in both stats variants). -/
structure StatsResp where
  totalMessages : Nat
  oldestMessage : Option Nat
  newestMessage : Option Nat
deriving DecidableEq

/-- A list is ordered newest-first with respect to a timestamp projection. -/
def sortedByDesc {α : Type _} (ts : α → Nat) (l : List α) : Prop :=
  List.Pairwise (fun a b => ts b ≤ ts a) l

instance {α : Type _} (ts : α → Nat) (l : List α) :
    Decidable (sortedByDesc ts l) :=
  decidable_of_iff (List.Pairwise (fun a b => ts b ≤ ts a) l) Iff.rfl

namespace ServerJs

/-- `src/server.js` line 20: `const MAX_MESSAGES = 1000`. -/
def MAX_MESSAGES : Nat := 1000

/-- The `file` sub-object attached to uploaded messages (metadata only). -/
structure UploadFile where
  filename : String
  originalName : String
  size : Nat
  mimetype : String
deriving DecidableEq

/-- A stored message of `server.js` (`urls`, a pure function of `message`,
is omitted; `file` is absent for plain text messages). -/
structure Message where
  id : Nat
  type : String
  message : String
  file : Option UploadFile
  timestamp : Nat
deriving DecidableEq

/-- The mutable server state: `let messages = []` plus the id/clock sources. -/
structure St where
  messages : List Message
  nextId : Nat
  clock : Nat
deriving DecidableEq

/-- Startup state. -/
def init : St := ⟨[], 0, 0⟩

/-- `src/server.js` lines 67-72. -/
def containsInappropriate (text : String) : Bool :=
  if text = "" then false
  else ["spam"].any (fun word => strIncludes (toLowerCase text) word)

/-- Response of `POST /api/messages` and `POST /api/messages/upload`. -/
inductive PostResp
  | created (success : Bool) (message : String) (id : Nat) (data : Message)
  | invalid (error : String)
deriving DecidableEq

/-- HTTP status of a post response. -/
def PostResp.status : PostResp → Nat
  | .created .. => 201
  | .invalid _ => 400

/-- The `newMessage` object literal of `src/server.js` lines 113-119, with
the id and timestamp sources passed explicitly. -/
def mkText (nid clk : Nat) (m : String) : Message :=
  { id := nid, type := "text", message := jsTrim m, file := none,
    timestamp := clk }

/-- The `newMessage` object created by `POST /api/messages` in state `s`. -/
def newTextMessage (s : St) (m : String) : Message :=
  mkText s.nextId s.clock m

/-- `POST /api/messages`, `src/server.js` lines 95-138.  `unshift` followed by
the conditional `slice(0, MAX_MESSAGES)` is exactly `(· :: ·).take 1000`. -/
def postMessage (message : Option JsVal) (s : St) : PostResp × St :=
  match message with
  | some (.vstr m) =>
    if m = "" then (.invalid "メッセージが必要です", s)
    else if m.length < 1 ∨ m.length > 2000 then
      (.invalid "メッセージは1〜2000文字で入力してください", s)
    else if containsInappropriate m then
      (.invalid "不適切なコンテンツが含まれています", s)
    else
      let newMsg := newTextMessage s m
      (.created true "メッセージが送信されました" newMsg.id newMsg,
       { messages := (newMsg :: s.messages).take MAX_MESSAGES,
         nextId := s.nextId + 1, clock := s.clock + 1 })
  | _ => (.invalid "メッセージが必要です", s)

/-- `/\.(jpg|jpeg|png|gif|webp)$/i.test(originalname)`. -/
def isImageName (n : String) : Bool :=
  [".jpg", ".jpeg", ".png", ".gif", ".webp"].any
    (fun e => strEndsWith (toLowerCase n) e)

/-- `/\.(mp4|webm)$/i.test(originalname)`. -/
def isVideoName (n : String) : Bool :=
  [".mp4", ".webm"].any (fun e => strEndsWith (toLowerCase n) e)

/-- `src/server.js` lines 158-163: `'file'`, overridden by image/video. -/
def fileTypeOf (f : UploadFile) : String :=
  if isVideoName f.originalName then "video"
  else if isImageName f.originalName then "image"
  else "file"

/-- `POST /api/messages/upload`, `src/server.js` lines 141-212.  Multer and
the filesystem are external; multipart text fields are strings, so the
`message` field is `Option String` and `req.body.message || ''` is `getD ""`. -/
def uploadMessage (file : Option UploadFile) (message : Option String)
    (s : St) : PostResp × St :=
  match file with
  | none => (.invalid "ファイルが必要です", s)
  | some f =>
    let m := message.getD ""
    if m.length > 500 then
      (.invalid "メッセージは500文字以内で入力してください", s)
    else if containsInappropriate m then
      (.invalid "不適切なコンテンツが含まれています", s)
    else
      let newMsg : Message :=
        { id := s.nextId, type := fileTypeOf f, message := jsTrim m,
          file := some f, timestamp := s.clock }
      (.created true "ファイルがアップロードされました" newMsg.id newMsg,
       { messages := (newMsg :: s.messages).take MAX_MESSAGES,
         nextId := s.nextId + 1, clock := s.clock + 1 })

/-- The `newMessage` object literal of `src/server.js` lines 167-180 created
by a successful upload in state `s` (same record as inside
`uploadMessage`). -/
def newUploadMessage (s : St) (f : UploadFile) (mo : Option String) :
    Message :=
  { id := s.nextId, type := fileTypeOf f, message := jsTrim (mo.getD ""),
    file := some f, timestamp := s.clock }

/-- JSON payload of `GET /api/messages`. -/
structure GetResp where
  messages : List Message
  total : Nat
  limit : Nat
  offset : Nat
  hasNew : Bool
deriving DecidableEq

/-- `GET /api/messages`, `src/server.js` lines 215-242.  `slice(o, o + l)` on
naturals is `drop o` then `take l`; `new Date(a) > new Date(b)` is `<` on the
clock. -/
def getMessages (limit offset since : Option Nat) (s : St) : GetResp × St :=
  let lim := resolveQueryNat limit 100
  let off := offset.getD 0
  let filtered :=
    match since with
    | some t => s.messages.filter (fun (m : Message) => decide (t < m.timestamp))
    | none => s.messages
  let page := (filtered.drop off).take lim
  ({ messages := page, total := s.messages.length, limit := lim,
     offset := off, hasNew := decide (0 < filtered.length) }, s)

/-- Response of `DELETE /api/messages/:id`. -/
inductive DelResp
  | removed (success : Bool) (message : String)
  | notFound (error : String)
deriving DecidableEq

/-- HTTP status of a delete response. -/
def DelResp.status : DelResp → Nat
  | .removed .. => 200
  | .notFound _ => 404

/-- `DELETE /api/messages/:id`, `src/server.js` lines 245-272.  `findIndex`
returning `-1` is `findIdx? = none`; `splice(i, 1)` is `eraseIdx i`; the
`fs.unlinkSync` of an attached file is outside the modelled state. -/
def deleteMessage (id : Nat) (s : St) : DelResp × St :=
  match s.messages.findIdx? (fun (m : Message) => m.id == id) with
  | none => (.notFound "メッセージが見つかりません", s)
  | some i =>
    (.removed true "メッセージが削除されました",
     { s with messages := s.messages.eraseIdx i })

/-- `GET /api/stats`, `src/server.js` lines 275-281: `messages[length-1]` is
the last list entry, `messages[0]` the head. -/
def getStats (s : St) : StatsResp × St :=
  ({ totalMessages := s.messages.length,
     oldestMessage := s.messages.getLast?.map (fun m => m.timestamp),
     newestMessage := s.messages.head?.map (fun m => m.timestamp) }, s)

/-- The request alphabet of `server.js` (rate limiting, CORS and static file
serving are middleware outside the store). -/
inductive Op
  | post (message : Option JsVal)
  | upload (file : Option UploadFile) (message : Option String)
  | get (limit offset since : Option Nat)
  | del (id : Nat)
  | stats
  | health

/-- Effect of one request on the server state. -/
def step : Op → St → St
  | .post b, s => (postMessage b s).2
  | .upload f m, s => (uploadMessage f m s).2
  | .get l o si, s => (getMessages l o si s).2
  | .del i, s => (deleteMessage i s).2
  | .stats, s => (getStats s).2
  | .health, s => s

/-- A text body that passes every `POST /api/messages` validation check. -/
def validText (m : String) : Prop :=
  m ≠ "" ∧ m.length ≤ 2000 ∧ containsInappropriate m = false

instance (m : String) : Decidable (validText m) :=
  decidable_of_iff
    (m ≠ "" ∧ m.length ≤ 2000 ∧ containsInappropriate m = false) Iff.rfl

/-- Run a sequence of plain-text sends. -/
def sendAll (bodies : List String) (s : St) : St :=
  bodies.foldl (fun st b => (postMessage (some (.vstr b)) st).2) s

/-- The messages a sequence of sends creates, listed newest-first (the order
`unshift` leaves them in), given the starting id counter and clock. -/
def revExpected : List String → Nat → Nat → List Message
  | [], _, _ => []
  | b :: bs, nid, clk => revExpected bs (nid + 1) (clk + 1) ++ [mkText nid clk b]

/-- The 400 body text of the banned-word rejection. -/
def inappropriateError : String := "不適切なコンテンツが含まれています"

/-- States reachable by operation: history newest-first, all timestamps in
the past of the clock. -/
def Inv (s : St) : Prop :=
  sortedByDesc Message.timestamp s.messages ∧
    ∀ m ∈ s.messages, m.timestamp < s.clock

end ServerJs

namespace Part000

/-- `src/unnamed/part_000` line 11: `const MAX_MESSAGES = 1000`. -/
def MAX_MESSAGES : Nat := 1000

/-- A stored message of `part_000` (`id`, `message`, `timestamp` only). -/
structure Message where
  id : Nat
  message : String
  timestamp : Nat
deriving DecidableEq

/-- The mutable server state of `part_000`. -/
structure St where
  messages : List Message
  nextId : Nat
  clock : Nat
deriving DecidableEq

/-- Startup state. -/
def init : St := ⟨[], 0, 0⟩

/-- `src/unnamed/part_000` lines 27-31 (no empty-string guard; only ever
called on validated non-empty strings). -/
def containsInappropriate (text : String) : Bool :=
  ["spam", "test123"].any (fun word => strIncludes (toLowerCase text) word)

/-- Response of `POST /api/messages` in `part_000`. -/
inductive PostResp
  | created (success : Bool) (message : String) (id : Nat)
  | invalid (error : String)
deriving DecidableEq

/-- HTTP status of a post response. -/
def PostResp.status : PostResp → Nat
  | .created .. => 201
  | .invalid _ => 400

/-- The `newMessage` object literal of `part_000` lines 62-66. -/
def newTextMessage (s : St) (m : String) : Message :=
  { id := s.nextId, message := jsTrim m, timestamp := s.clock }

/-- `POST /api/messages`, `src/unnamed/part_000` lines 43-85. -/
def postMessage (message : Option JsVal) (s : St) : PostResp × St :=
  match message with
  | some (.vstr m) =>
    if m = "" then (.invalid "メッセージが必要です", s)
    else if m.length < 1 ∨ m.length > 500 then
      (.invalid "メッセージは1〜500文字で入力してください", s)
    else if containsInappropriate m then
      (.invalid "不適切なコンテンツが含まれています", s)
    else
      let newMsg := newTextMessage s m
      (.created true "メッセージが送信されました" newMsg.id,
       { messages := (newMsg :: s.messages).take MAX_MESSAGES,
         nextId := s.nextId + 1, clock := s.clock + 1 })
  | _ => (.invalid "メッセージが必要です", s)

/-- JSON payload of `GET /api/messages` in `part_000`. -/
structure GetResp where
  messages : List Message
  total : Nat
  limit : Nat
  offset : Nat
deriving DecidableEq

/-- `GET /api/messages`, `src/unnamed/part_000` lines 88-106 (default page
size 50, no `since` filter). -/
def getMessages (limit offset : Option Nat) (s : St) : GetResp × St :=
  let lim := resolveQueryNat limit 50
  let off := offset.getD 0
  let page := (s.messages.drop off).take lim
  ({ messages := page, total := s.messages.length, limit := lim,
     offset := off }, s)

/-- `GET /api/stats`, `src/unnamed/part_000` lines 109-115. -/
def getStats (s : St) : StatsResp × St :=
  ({ totalMessages := s.messages.length,
     oldestMessage := s.messages.getLast?.map (fun m => m.timestamp),
     newestMessage := s.messages.head?.map (fun m => m.timestamp) }, s)

/-- The request alphabet of `part_000` (no delete, no upload). -/
inductive Op
  | post (message : Option JsVal)
  | get (limit offset : Option Nat)
  | stats
  | health

/-- Effect of one request on the server state. -/
def step : Op → St → St
  | .post b, s => (postMessage b s).2
  | .get l o, s => (getMessages l o s).2
  | .stats, s => (getStats s).2
  | .health, s => s

/-- A text body that passes every `POST /api/messages` validation check. -/
def validText (m : String) : Prop :=
  m ≠ "" ∧ m.length ≤ 500 ∧ containsInappropriate m = false

instance (m : String) : Decidable (validText m) :=
  decidable_of_iff
    (m ≠ "" ∧ m.length ≤ 500 ∧ containsInappropriate m = false) Iff.rfl

/-- The 400 body text of the banned-word rejection. -/
def inappropriateError : String := "不適切なコンテンツが含まれています"

/-- States reachable by operation: history newest-first, all timestamps in
the past of the clock. -/
def Inv (s : St) : Prop :=
  sortedByDesc Message.timestamp s.messages ∧
    ∀ m ∈ s.messages, m.timestamp < s.clock

end Part000

namespace Part001

/-- A stored message of `part_001`: `{id, from, body, sentAt}` (`from` is a
Lean keyword, hence the field name `from_`). -/
structure Message where
  id : Nat
  from_ : String
  body : String
  sentAt : Nat
deriving DecidableEq

/-- The mutable server state of `part_001` (no size cap). -/
structure St where
  messages : List Message
  nextId : Nat
  clock : Nat
deriving DecidableEq

/-- Startup state. -/
def init : St := ⟨[], 0, 0⟩

/-- Response of `POST /messages`.  `serverError` models the TypeError thrown
by `.trim()` on a truthy non-string, which Express's default error handler
turns into a 500 response. -/
inductive PostResp
  | created (success : Bool) (message : Message)
  | invalid (success : Bool) (error : String)
  | serverError (error : String)
deriving DecidableEq

/-- HTTP status of a post response. -/
def PostResp.status : PostResp → Nat
  | .created .. => 201
  | .invalid .. => 400
  | .serverError _ => 500

/-- `(from || '自分').trim()`: falsy values fall back to the default name; a
truthy non-string makes `.trim()` throw (`none` result). -/
def fromValue : Option JsVal → Option String
  | f =>
    if jsOptFalsy f then some (jsTrim "自分")
    else
      match f with
      | some (.vstr t) => some (jsTrim t)
      | _ => none

/-- The `message` object literal of `part_001` lines 34-39. -/
def mkMessage (s : St) (fm b : String) : Message :=
  { id := s.nextId, from_ := fm, body := jsTrim b, sentAt := s.clock }

/-- `POST /messages`, `src/unnamed/part_001` lines 24-46.  `!body` short-
circuits before `body.trim()`, so a falsy body (absent, `null`, `""`, `0`,
`false`) is a 400, a truthy string gets the trim check, and a truthy
non-string body throws before any mutation; `messages.push` appends at the
tail. -/
def postMessage (body fromF : Option JsVal) (s : St) : PostResp × St :=
  match body with
  | some (.vstr b) =>
    if b = "" then (.invalid false "本文(body)は必須です", s)
    else if jsTrim b = "" then (.invalid false "本文(body)は必須です", s)
    else
      match fromValue fromF with
      | some fm =>
        let msg := mkMessage s fm b
        (.created true msg,
         { messages := s.messages ++ [msg],
           nextId := s.nextId + 1, clock := s.clock + 1 })
      | none => (.serverError "TypeError: from.trim is not a function", s)
  | some v =>
    if v.falsy then (.invalid false "本文(body)は必須です", s)
    else (.serverError "TypeError: body.trim is not a function", s)
  | none => (.invalid false "本文(body)は必須です", s)

/-- JSON payload of `GET /messages`. -/
structure GetResp where
  success : Bool
  messages : List Message
deriving DecidableEq

/-- `GET /messages`, `src/unnamed/part_001` lines 16-18. -/
def getAll (s : St) : GetResp × St :=
  ({ success := true, messages := s.messages }, s)

/-- Response of `DELETE /messages/:id`. -/
inductive DelResp
  | ok (success : Bool)
  | notFound (success : Bool) (error : String)
deriving DecidableEq

/-- HTTP status of a delete response. -/
def DelResp.status : DelResp → Nat
  | .ok _ => 200
  | .notFound .. => 404

/-- `DELETE /messages/:id`, `src/unnamed/part_001` lines 51-61: the list is
reassigned to the filtered copy before the length comparison decides 404. -/
def deleteMessage (id : Nat) (s : St) : DelResp × St :=
  let remaining := s.messages.filter (fun (m : Message) => m.id != id)
  if remaining.length = s.messages.length then
    (.notFound false "メッセージが見つかりません",
     { s with messages := remaining })
  else
    (.ok true, { s with messages := remaining })

/-- The request alphabet of `part_001`. -/
inductive Op
  | post (body fromF : Option JsVal)
  | getAll
  | del (id : Nat)
  | health

/-- Effect of one request on the server state. -/
def step : Op → St → St
  | .post b f, s => (postMessage b f s).2
  | .getAll, s => (getAll s).2
  | .del i, s => (deleteMessage i s).2
  | .health, s => s

/-- Run a sequence of sends with no `from` field. -/
def sendAll (bodies : List String) (s : St) : St :=
  bodies.foldl (fun st b => (postMessage (some (.vstr b)) none st).2) s

/-- The messages a sequence of `from`-less sends appends, in send order,
given the starting id counter and clock. -/
def expectedMsgs : List String → Nat → Nat → List Message
  | [], _, _ => []
  | b :: bs, nid, clk =>
    { id := nid, from_ := jsTrim "自分", body := jsTrim b, sentAt := clk } ::
      expectedMsgs bs (nid + 1) (clk + 1)

end Part001

/-! ## Generic helper lemmas -/

theorem charsStartWith_subset {p l : List Char} (h : charsStartWith p l = true) :
    ∀ c ∈ p, c ∈ l := by
  induction p generalizing l with
  | nil => intro c hc; cases hc
  | cons a as ih =>
    cases l with
    | nil => simp [charsStartWith] at h
    | cons b bs =>
      simp only [charsStartWith, Bool.and_eq_true, beq_iff_eq] at h
      intro c hc
      rcases List.mem_cons.mp hc with rfl | hc
      · rw [h.1]; exact List.mem_cons_self _ _
      · exact List.mem_cons_of_mem _ (ih h.2 c hc)

theorem charsContain_subset {p l : List Char} (h : charsContain p l = true) :
    ∀ c ∈ p, c ∈ l := by
  induction l with
  | nil =>
    intro c hc
    cases p with
    | nil => cases hc
    | cons x xs => simp [charsContain, List.isEmpty] at h
  | cons b bs ih =>
    simp only [charsContain, Bool.or_eq_true] at h
    rcases h with h | h
    · exact charsStartWith_subset h
    · intro c hc; exact List.mem_cons_of_mem _ (ih h c hc)

theorem jsWs_toLower {c : Char} (h : jsWs c = true) : c.toLower = c := by
  simp only [jsWs, Bool.or_eq_true, beq_iff_eq] at h
  rcases h with ((((h | h) | h) | h) | h) | h <;> subst h <;> decide

theorem jsTrim_eq_empty {t : String} :
    jsTrim t = "" ↔ ∀ c ∈ t.data, jsWs c = true := by
  constructor
  · intro h
    have hd : ((t.data.dropWhile jsWs).reverse.dropWhile jsWs).reverse = [] :=
      congrArg String.data h
    rw [List.reverse_eq_nil_iff, List.dropWhile_eq_nil_iff] at hd
    intro c hc
    rw [← List.takeWhile_append_dropWhile (p := jsWs) (l := t.data)] at hc
    rcases List.mem_append.mp hc with hc | hc
    · exact List.mem_takeWhile_imp hc
    · exact hd c (List.mem_reverse.mpr hc)
  · intro h
    have h1 : t.data.dropWhile jsWs = [] :=
      List.dropWhile_eq_nil_iff.mpr (fun c hc => h c hc)
    unfold jsTrim
    rw [h1]
    rfl

theorem strIncludes_ws_false {t pat : String} (hw : ∀ c ∈ t.data, jsWs c = true)
    (c0 : Char) (hc0 : c0 ∈ pat.data) (hc0w : jsWs c0 = false) :
    strIncludes (toLowerCase t) pat = false := by
  apply Bool.eq_false_iff.mpr
  intro hinc
  have hmem : c0 ∈ (toLowerCase t).data := charsContain_subset hinc c0 hc0
  have hmem' : c0 ∈ t.data.map Char.toLower := hmem
  rcases List.mem_map.mp hmem' with ⟨c, hc, hcl⟩
  have hwc := hw c hc
  rw [jsWs_toLower hwc] at hcl
  subst hcl
  rw [hwc] at hc0w
  cases hc0w

theorem strLengthPos {s : String} (h : s ≠ "") : 0 < s.length := by
  rcases s with ⟨data⟩
  cases data with
  | nil => exact absurd rfl h
  | cons a t =>
    rw [← String.length_data]
    simp

theorem take_append_take {α : Type _} (n : Nat) (l m : List α) :
    (l ++ m.take n).take n = (l ++ m).take n := by
  rw [List.take_append_eq_append_take, List.take_append_eq_append_take, List.take_take,
    Nat.min_eq_left (Nat.sub_le _ _)]

theorem mem_take_head {α : Type _} (a : α) (l : List α) {n : Nat} (h : 0 < n) :
    a ∈ (a :: l).take n := by
  cases n with
  | zero => exact absurd h (lt_irrefl 0)
  | succ k => rw [List.take_succ_cons]; exact List.mem_cons_self _ _

theorem findIdx_erase_split {α : Type _} (p : α → Bool) {l : List α}
    (h : ∃ x ∈ l, p x = true) :
    ∃ i l1 x l2, l.findIdx? p = some i ∧ l = l1 ++ x :: l2 ∧ p x = true ∧
      (∀ y ∈ l1, p y = false) ∧ l.eraseIdx i = l1 ++ l2 := by
  induction l with
  | nil => rcases h with ⟨x, hx, _⟩; cases hx
  | cons a t ih =>
    by_cases ha : p a = true
    · exact ⟨0, [], a, t, by simp [List.findIdx?_cons, ha], rfl, ha, by simp, rfl⟩
    · have h' : ∃ x ∈ t, p x = true := by
        rcases h with ⟨x, hx, hpx⟩
        rcases List.mem_cons.mp hx with rfl | hx
        · exact absurd hpx ha
        · exact ⟨x, hx, hpx⟩
      rcases ih h' with ⟨i, l1, x, l2, hfind, hsplit, hpx, hl1, herase⟩
      refine ⟨i + 1, a :: l1, x, l2, ?_, by rw [hsplit]; rfl, hpx, ?_, ?_⟩
      · rw [List.findIdx?_cons, if_neg ha, List.findIdx?_succ, hfind]; rfl
      · intro y hy
        rcases List.mem_cons.mp hy with rfl | hy
        · exact Bool.eq_false_iff.mpr ha
        · exact hl1 y hy
      · rw [show (a :: t).eraseIdx (i + 1) = a :: t.eraseIdx i from rfl, herase]; rfl

theorem sortedByDesc_head_max {α : Type _} {ts : α → Nat} {a : α} {l : List α}
    (h : sortedByDesc ts (a :: l)) : ∀ m ∈ a :: l, ts m ≤ ts a := by
  simp only [sortedByDesc, List.pairwise_cons] at h
  intro m hm
  rcases List.mem_cons.mp hm with rfl | hm
  · exact le_refl _
  · exact h.1 m hm

theorem sortedByDesc_getLast_min {α : Type _} {ts : α → Nat} :
    ∀ {l : List α}, sortedByDesc ts l → ∀ (hne : l ≠ []) (m : α), m ∈ l →
      ts (l.getLast hne) ≤ ts m := by
  intro l
  induction l with
  | nil => intro _ hne; exact absurd rfl hne
  | cons a t ih =>
    intro h hne m hm
    cases t with
    | nil =>
      rcases List.mem_cons.mp hm with rfl | hm
      · exact le_refl _
      · cases hm
    | cons b u =>
      have hp : List.Pairwise (fun x y => ts y ≤ ts x) (a :: b :: u) := h
      have h1 := (List.pairwise_cons.mp hp).1
      have h2 : sortedByDesc ts (b :: u) := (List.pairwise_cons.mp hp).2
      have hgl : (a :: b :: u).getLast hne = (b :: u).getLast (by simp) := rfl
      rcases List.mem_cons.mp hm with rfl | hm
      · rw [hgl]
        exact h1 _ (List.getLast_mem _)
      · rw [hgl]
        exact ih h2 (by simp) m hm

theorem pairwise_take_drop {α : Type _} {ts : α → Nat} {l : List α}
    (h : sortedByDesc ts l) (n : Nat) :
    ∀ d ∈ l.drop n, ∀ r ∈ l.take n, ts d ≤ ts r := by
  have h' := h
  rw [← List.take_append_drop n l] at h'
  simp only [sortedByDesc] at h'
  have hp := (List.pairwise_append.mp h').2.2
  exact fun d hd r hr => hp r hr d hd

/-! ## `server.js` helper lemmas -/

namespace ServerJs

theorem containsInappropriate_ws {t : String}
    (hw : ∀ c ∈ t.data, jsWs c = true) : containsInappropriate t = false := by
  unfold containsInappropriate
  split_ifs with h
  · rfl
  · simp only [List.any_cons, List.any_nil, Bool.or_false]
    exact strIncludes_ws_false hw 's' (by decide) (by decide)

theorem post_success (m : String) (s : St) (h1 : m ≠ "") (h2 : m.length ≤ 2000)
    (h3 : containsInappropriate m = false) :
    postMessage (some (.vstr m)) s =
      (.created true "メッセージが送信されました" (newTextMessage s m).id
        (newTextMessage s m),
       { messages := (newTextMessage s m :: s.messages).take MAX_MESSAGES,
         nextId := s.nextId + 1, clock := s.clock + 1 }) := by
  simp only [postMessage]
  rw [if_neg h1, if_neg ?hlen, if_neg ?hban]
  case hlen =>
    intro hc
    have := strLengthPos h1
    rcases hc with hc | hc <;> omega
  case hban => simp [h3]

theorem step_state (op : Op) (s : St) :
    step op s = s
    ∨ (∃ msg : Message, msg.timestamp = s.clock ∧ msg.id = s.nextId ∧
        step op s = ⟨(msg :: s.messages).take MAX_MESSAGES,
          s.nextId + 1, s.clock + 1⟩)
    ∨ (∃ i, step op s = { s with messages := s.messages.eraseIdx i }) := by
  cases op with
  | post b =>
    rcases b with _ | v
    · exact Or.inl rfl
    rcases v with m | n | bb | _
    · simp only [step, postMessage]
      split_ifs with h1 h2 h3
      · exact Or.inl rfl
      · exact Or.inl rfl
      · exact Or.inl rfl
      · exact Or.inr (Or.inl ⟨newTextMessage s m, rfl, rfl, rfl⟩)
    · exact Or.inl rfl
    · exact Or.inl rfl
    · exact Or.inl rfl
  | upload f mo =>
    rcases f with _ | f
    · exact Or.inl rfl
    · simp only [step, uploadMessage]
      split_ifs with h1 h2
      · exact Or.inl rfl
      · exact Or.inl rfl
      · exact Or.inr (Or.inl
          ⟨⟨s.nextId, fileTypeOf f, jsTrim (mo.getD ""), some f, s.clock⟩,
           rfl, rfl, rfl⟩)
  | get l o si => exact Or.inl rfl
  | del i =>
    rcases hfi : s.messages.findIdx? (fun m => m.id == i) with _ | j
    · left
      show (deleteMessage i s).2 = s
      unfold deleteMessage
      rw [hfi]
    · right; right
      refine ⟨j, ?_⟩
      show (deleteMessage i s).2 = _
      unfold deleteMessage
      rw [hfi]
  | stats => exact Or.inl rfl
  | health => exact Or.inl rfl

theorem inv_step (op : Op) (s : St) (h : Inv s) : Inv (step op s) := by
  obtain ⟨hs, hc⟩ := h
  rcases step_state op s with heq | ⟨msg, hts, _, heq⟩ | ⟨i, heq⟩ <;> rw [heq]
  · exact ⟨hs, hc⟩
  · constructor
    · show sortedByDesc _ ((msg :: s.messages).take MAX_MESSAGES)
      have hcons : sortedByDesc Message.timestamp (msg :: s.messages) :=
        List.pairwise_cons.mpr
          ⟨fun x hx => by rw [hts]; exact le_of_lt (hc x hx), hs⟩
      exact List.Pairwise.sublist (List.take_sublist _ _) hcons
    · intro m hm
      show m.timestamp < s.clock + 1
      rcases List.mem_cons.mp ((List.take_sublist _ _).subset hm) with rfl | hm
      · rw [hts]; exact Nat.lt_succ_self _
      · exact Nat.lt_succ_of_lt (hc m hm)
  · exact ⟨List.Pairwise.sublist (List.eraseIdx_sublist _ _) hs,
      fun m hm => hc m ((List.eraseIdx_sublist _ _).subset hm)⟩

theorem sendAll_spec (bodies : List String) :
    ∀ (s : St), (∀ b ∈ bodies, validText b) → s.messages.length ≤ 1000 →
      (sendAll bodies s).messages =
          (revExpected bodies s.nextId s.clock ++ s.messages).take 1000 ∧
      (sendAll bodies s).nextId = s.nextId + bodies.length ∧
      (sendAll bodies s).clock = s.clock + bodies.length := by
  induction bodies with
  | nil =>
    intro s _ hlen
    exact ⟨by simp [sendAll, revExpected, List.take_of_length_le hlen], rfl, rfl⟩
  | cons b bs ih =>
    intro s hv hlen
    obtain ⟨hb1, hb2, hb3⟩ := hv b (List.mem_cons_self _ _)
    have hpost := post_success b s hb1 hb2 hb3
    have hstep : sendAll (b :: bs) s =
        sendAll bs ((postMessage (some (.vstr b)) s).2) := rfl
    rw [hstep, hpost]
    obtain ⟨ih1, ih2, ih3⟩ := ih
      { messages := (newTextMessage s b :: s.messages).take MAX_MESSAGES,
        nextId := s.nextId + 1, clock := s.clock + 1 }
      (fun x hx => hv x (List.mem_cons_of_mem _ hx))
      (show ((newTextMessage s b :: s.messages).take MAX_MESSAGES).length ≤ 1000
        from List.length_take_le _ _)
    refine ⟨?_,
      by rw [ih2]; show s.nextId + 1 + bs.length = s.nextId + (bs.length + 1); omega,
      by rw [ih3]; show s.clock + 1 + bs.length = s.clock + (bs.length + 1); omega⟩
    rw [ih1]
    simp only [MAX_MESSAGES, newTextMessage, revExpected]
    rw [take_append_take, List.append_assoc, List.singleton_append]

theorem getMessages_all (s : St) (L : Nat) (hL : L ≠ 0)
    (hlen : s.messages.length ≤ L) :
    (getMessages (some L) none none s).1.messages = s.messages := by
  simp only [getMessages, resolveQueryNat]
  rw [if_neg hL]
  show (s.messages.drop 0).take L = s.messages
  rw [List.drop_zero, List.take_of_length_le hlen]

theorem upload_success (f : UploadFile) (mo : Option String) (s : St)
    (h1 : (mo.getD "").length ≤ 500)
    (h2 : containsInappropriate (mo.getD "") = false) :
    uploadMessage (some f) mo s =
      (.created true "ファイルがアップロードされました"
        (newUploadMessage s f mo).id (newUploadMessage s f mo),
       { messages := (newUploadMessage s f mo :: s.messages).take MAX_MESSAGES,
         nextId := s.nextId + 1, clock := s.clock + 1 }) := by
  simp only [uploadMessage]
  split_ifs with h1' h2'
  · exact absurd h1' (Nat.not_lt.mpr h1)
  · rw [h2] at h2'; exact Bool.noConfusion h2'
  · rfl

end ServerJs

/-! ## `part_000` helper lemmas -/

namespace Part000

theorem containsInappropriateWs0 {t : String}
    (hw : ∀ c ∈ t.data, jsWs c = true) : containsInappropriate t = false := by
  unfold containsInappropriate
  simp only [List.any_cons, List.any_nil, Bool.or_false, Bool.or_eq_false_iff]
  exact ⟨strIncludes_ws_false hw 's' (by decide) (by decide),
         strIncludes_ws_false hw 't' (by decide) (by decide)⟩

theorem postSuccess0 (m : String) (s : St) (h1 : m ≠ "") (h2 : m.length ≤ 500)
    (h3 : containsInappropriate m = false) :
    postMessage (some (.vstr m)) s =
      (.created true "メッセージが送信されました" (newTextMessage s m).id,
       { messages := (newTextMessage s m :: s.messages).take MAX_MESSAGES,
         nextId := s.nextId + 1, clock := s.clock + 1 }) := by
  simp only [postMessage]
  rw [if_neg h1, if_neg ?hlen, if_neg ?hban]
  case hlen =>
    intro hc
    have := strLengthPos h1
    rcases hc with hc | hc <;> omega
  case hban => simp [h3]

theorem stepState0 (op : Op) (s : St) :
    step op s = s
    ∨ (∃ msg : Message, msg.timestamp = s.clock ∧ msg.id = s.nextId ∧
        step op s = ⟨(msg :: s.messages).take MAX_MESSAGES,
          s.nextId + 1, s.clock + 1⟩) := by
  cases op with
  | post b =>
    rcases b with _ | v
    · exact Or.inl rfl
    rcases v with m | n | bb | _
    · simp only [step, postMessage]
      split_ifs with h1 h2 h3
      · exact Or.inl rfl
      · exact Or.inl rfl
      · exact Or.inl rfl
      · exact Or.inr ⟨newTextMessage s m, rfl, rfl, rfl⟩
    · exact Or.inl rfl
    · exact Or.inl rfl
    · exact Or.inl rfl
  | get l o => exact Or.inl rfl
  | stats => exact Or.inl rfl
  | health => exact Or.inl rfl

theorem invStep0 (op : Op) (s : St) (h : Inv s) : Inv (step op s) := by
  obtain ⟨hs, hc⟩ := h
  rcases stepState0 op s with heq | ⟨msg, hts, _, heq⟩ <;> rw [heq]
  · exact ⟨hs, hc⟩
  · constructor
    · show sortedByDesc _ ((msg :: s.messages).take MAX_MESSAGES)
      have hcons : sortedByDesc Message.timestamp (msg :: s.messages) :=
        List.pairwise_cons.mpr
          ⟨fun x hx => by rw [hts]; exact le_of_lt (hc x hx), hs⟩
      exact List.Pairwise.sublist (List.take_sublist _ _) hcons
    · intro m hm
      show m.timestamp < s.clock + 1
      rcases List.mem_cons.mp ((List.take_sublist _ _).subset hm) with rfl | hm
      · rw [hts]; exact Nat.lt_succ_self _
      · exact Nat.lt_succ_of_lt (hc m hm)

end Part000

/-! ## `part_001` helper lemmas -/

namespace Part001

theorem postSuccess1 (b : String) (f : Option JsVal) (fm : String) (s : St)
    (hb : jsTrim b ≠ "") (hf : fromValue f = some fm) :
    postMessage (some (.vstr b)) f s =
      (.created true (mkMessage s fm b),
       { messages := s.messages ++ [mkMessage s fm b],
         nextId := s.nextId + 1, clock := s.clock + 1 }) := by
  have hbne : b ≠ "" := fun he => hb (by rw [he]; rfl)
  simp only [postMessage]
  rw [if_neg hbne, if_neg hb, hf]

theorem stepState1 (op : Op) (s : St) :
    step op s = s
    ∨ (∃ msg : Message, msg.id = s.nextId ∧
        step op s = ⟨s.messages ++ [msg], s.nextId + 1, s.clock + 1⟩)
    ∨ (∃ i, step op s =
        { s with messages := s.messages.filter (fun m => m.id != i) }) := by
  cases op with
  | post b f =>
    rcases b with _ | v
    · exact Or.inl rfl
    rcases v with m | n | bb | _
    · simp only [step, postMessage]
      split_ifs with h1 h2
      · exact Or.inl rfl
      · exact Or.inl rfl
      · rcases hfv : fromValue f with _ | fm
        · exact Or.inl rfl
        · exact Or.inr (Or.inl ⟨mkMessage s fm m, rfl, rfl⟩)
    · simp only [step, postMessage]
      split_ifs with h1
      · exact Or.inl rfl
      · exact Or.inl rfl
    · simp only [step, postMessage]
      split_ifs with h1
      · exact Or.inl rfl
      · exact Or.inl rfl
    · simp only [step, postMessage]
      split_ifs with h1
      · exact Or.inl rfl
      · exact Or.inl rfl
  | getAll => exact Or.inl rfl
  | del i =>
    simp only [step, deleteMessage]
    split_ifs with h
    · exact Or.inr (Or.inr ⟨i, rfl⟩)
    · exact Or.inr (Or.inr ⟨i, rfl⟩)
  | health => exact Or.inl rfl

theorem sendAllSpec1 (bodies : List String) :
    ∀ (s : St), (∀ b ∈ bodies, jsTrim b ≠ "") →
      (sendAll bodies s).messages =
          s.messages ++ expectedMsgs bodies s.nextId s.clock ∧
      (sendAll bodies s).nextId = s.nextId + bodies.length ∧
      (sendAll bodies s).clock = s.clock + bodies.length := by
  induction bodies with
  | nil =>
    intro s _
    exact ⟨by simp [sendAll, expectedMsgs], rfl, rfl⟩
  | cons b bs ih =>
    intro s hv
    have hb : jsTrim b ≠ "" := hv b (List.mem_cons_self _ _)
    have hfv : fromValue none = some (jsTrim "自分") := rfl
    have hpost := postSuccess1 b none (jsTrim "自分") s hb hfv
    have hstep : sendAll (b :: bs) s =
        sendAll bs ((postMessage (some (.vstr b)) none s).2) := rfl
    rw [hstep, hpost]
    obtain ⟨ih1, ih2, ih3⟩ := ih
      { messages := s.messages ++ [mkMessage s (jsTrim "自分") b],
        nextId := s.nextId + 1, clock := s.clock + 1 }
      (fun x hx => hv x (List.mem_cons_of_mem _ hx))
    refine ⟨?_,
      by rw [ih2]; show s.nextId + 1 + bs.length = s.nextId + (bs.length + 1); omega,
      by rw [ih3]; show s.clock + 1 + bs.length = s.clock + (bs.length + 1); omega⟩
    rw [ih1]
    show (s.messages ++ [mkMessage s (jsTrim "自分") b]) ++
        expectedMsgs bs (s.nextId + 1) (s.clock + 1) = _
    rw [List.append_assoc, List.singleton_append]
    rfl

end Part001

/-! ## Claim C1 -/

/-- C1 counterexample: in `server.js`, after the successful sends "a" then
"b", the GET listing shows the bodies as ["b", "a"] — the reverse of the
order the sends succeeded — so the listing is not in send order. -/
theorem C1_counterexample :
    ((ServerJs.getMessages none none none
        (ServerJs.sendAll ["a", "b"] ServerJs.init)).1.messages.map
      (fun m => m.message)) = ["b", "a"]
    ∧ ((ServerJs.getMessages none none none
        (ServerJs.sendAll ["a", "b"] ServerJs.init)).1.messages.map
      (fun m => m.message)) ≠ ["a", "b"] := by
  decide

/-- C1 amended: after a sequence of successful sends, the `part_001` GET
listing is exactly the prior history followed by the new messages in send
order (no reordering, no loss); in `server.js` the GET listing is exactly
the new messages in reverse send order (newest first) followed by the prior
history, truncated to the 1000 most recent. -/
theorem C1_amended_theorem :
    (∀ (bodies : List String) (s : Part001.St), (∀ b ∈ bodies, jsTrim b ≠ "") →
        (Part001.getAll (Part001.sendAll bodies s)).1.messages =
          s.messages ++ Part001.expectedMsgs bodies s.nextId s.clock)
  ∧ (∀ (bodies : List String) (s : ServerJs.St) (L : Nat),
        (∀ b ∈ bodies, ServerJs.validText b) → s.messages.length ≤ 1000 →
        L ≠ 0 → (ServerJs.sendAll bodies s).messages.length ≤ L →
        (ServerJs.getMessages (some L) none none
            (ServerJs.sendAll bodies s)).1.messages =
          (ServerJs.revExpected bodies s.nextId s.clock ++ s.messages).take 1000) := by
  constructor
  · intro bodies s hv
    exact (Part001.sendAllSpec1 bodies s hv).1
  · intro bodies s L hv hlen hL hfits
    rw [ServerJs.getMessages_all _ L hL hfits]
    exact (ServerJs.sendAll_spec bodies s hv hlen).1

/-- C1 witness: the amended theorem applied to the concrete sends "a", "b"
from the startup state of each variant. -/
theorem C1_amended_witness :
    (Part001.getAll (Part001.sendAll ["a", "b"] Part001.init)).1.messages =
        Part001.init.messages ++
          Part001.expectedMsgs ["a", "b"] Part001.init.nextId Part001.init.clock
  ∧ (ServerJs.getMessages (some 5) none none
        (ServerJs.sendAll ["a", "b"] ServerJs.init)).1.messages =
      (ServerJs.revExpected ["a", "b"] ServerJs.init.nextId ServerJs.init.clock ++
        ServerJs.init.messages).take 1000 :=
  ⟨C1_amended_theorem.1 ["a", "b"] Part001.init (by decide),
   C1_amended_theorem.2 ["a", "b"] ServerJs.init 5 (by decide) (by decide)
     (by decide) (by decide)⟩

/-! ## Claim C2 -/

/-- C2 counterexample: in `server.js`, the plain-text send " " has blank
text (its trim is empty), yet it is accepted with status 201 and appended to
the store. -/
theorem C2_counterexample :
    jsTrim " " = ""
  ∧ (ServerJs.postMessage (some (.vstr " ")) ServerJs.init).1.status = 201
  ∧ (ServerJs.postMessage (some (.vstr " ")) ServerJs.init).2.messages ≠
      ServerJs.init.messages := by
  decide

/-- C2 amended: a plain-text send whose text is blank after trimming is
rejected with the store unchanged in `part_001`; in `server.js` and
`part_000` only a missing or empty text is rejected with the store
unchanged, while a whitespace-only text (within the length limit) is
accepted with status 201 and appended with its body trimmed to the empty
string. -/
theorem C2_amended_theorem :
    (∀ (t : String) (f : Option JsVal) (s : Part001.St), jsTrim t = "" →
        Part001.postMessage (some (.vstr t)) f s =
          (.invalid false "本文(body)は必須です", s))
  ∧ (∀ s : ServerJs.St,
        ServerJs.postMessage (some (.vstr "")) s =
            (.invalid "メッセージが必要です", s)
      ∧ ServerJs.postMessage none s = (.invalid "メッセージが必要です", s))
  ∧ (∀ s : Part000.St,
        Part000.postMessage (some (.vstr "")) s =
            (.invalid "メッセージが必要です", s)
      ∧ Part000.postMessage none s = (.invalid "メッセージが必要です", s))
  ∧ (∀ (t : String) (s : ServerJs.St), jsTrim t = "" → t ≠ "" →
        t.length ≤ 2000 →
        (ServerJs.postMessage (some (.vstr t)) s).1.status = 201
      ∧ (ServerJs.postMessage (some (.vstr t)) s).2.messages =
          (ServerJs.newTextMessage s t :: s.messages).take 1000
      ∧ (ServerJs.newTextMessage s t).message = "")
  ∧ (∀ (t : String) (s : Part000.St), jsTrim t = "" → t ≠ "" →
        t.length ≤ 500 →
        (Part000.postMessage (some (.vstr t)) s).1.status = 201
      ∧ (Part000.postMessage (some (.vstr t)) s).2.messages =
          (Part000.newTextMessage s t :: s.messages).take 1000
      ∧ (Part000.newTextMessage s t).message = "") := by
  refine ⟨?_, ?_, ?_, ?_, ?_⟩
  · intro t f s ht
    by_cases hte : t = ""
    · subst hte
      rfl
    · simp only [Part001.postMessage]
      rw [if_neg hte, if_pos ht]
  · intro s; exact ⟨rfl, rfl⟩
  · intro s; exact ⟨rfl, rfl⟩
  · intro t s ht htne hlen
    have hw := jsTrim_eq_empty.mp ht
    have hban := ServerJs.containsInappropriate_ws hw
    have hp := ServerJs.post_success t s htne hlen hban
    refine ⟨by rw [hp]; rfl, by rw [hp]; rfl, ht⟩
  · intro t s ht htne hlen
    have hw := jsTrim_eq_empty.mp ht
    have hban := Part000.containsInappropriateWs0 hw
    have hp := Part000.postSuccess0 t s htne hlen hban
    refine ⟨by rw [hp]; rfl, by rw [hp]; rfl, ht⟩

/-- C2 witness: the amended theorem applied to a blank body in `part_001`
and the whitespace-only body " " in `server.js`. -/
theorem C2_amended_witness :
    Part001.postMessage (some (.vstr " ")) none Part001.init =
        (.invalid false "本文(body)は必須です", Part001.init)
  ∧ ((ServerJs.postMessage (some (.vstr " ")) ServerJs.init).1.status = 201
      ∧ (ServerJs.postMessage (some (.vstr " ")) ServerJs.init).2.messages =
          (ServerJs.newTextMessage ServerJs.init " " ::
            ServerJs.init.messages).take 1000
      ∧ (ServerJs.newTextMessage ServerJs.init " ").message = "") :=
  ⟨C2_amended_theorem.1 " " none Part001.init (by decide),
   C2_amended_theorem.2.2.2.1 " " ServerJs.init (by decide) (by decide)
     (by decide)⟩

/-! ## Claim C3 -/

/-- C3 counterexample: in `part_001`, a send whose message field is the
number 5 — a request failing validation because the field is not a string —
is answered with status 500 (a thrown TypeError), not 400; the store is
unchanged. -/
theorem C3_counterexample :
    (Part001.postMessage (some (.vnum 5)) none Part001.init).1.status = 500
  ∧ (Part001.postMessage (some (.vnum 5)) none Part001.init).1.status ≠ 400
  ∧ (Part001.postMessage (some (.vnum 5)) none Part001.init).2 =
      Part001.init := by
  decide

/-- C3 amended: in `server.js` and `part_000` a message-send whose message
field is missing, not a string, or longer than the variant's maximum is
answered 400 with a string error field and an unchanged store; in `part_001`
a missing or falsy message field is answered 400 with an unchanged store,
but a truthy non-string message field raises a 500 server error (store still
unchanged). -/
theorem C3_amended_theorem :
    (∀ (b : Option JsVal) (s : ServerJs.St),
        (b = none ∨ (∃ v, b = some v ∧ ∀ t, v ≠ .vstr t) ∨
          (∃ t, b = some (.vstr t) ∧ t.length > 2000)) →
        (ServerJs.postMessage b s).1.status = 400
      ∧ (∃ e, (ServerJs.postMessage b s).1 = .invalid e)
      ∧ (ServerJs.postMessage b s).2 = s)
  ∧ (∀ (b : Option JsVal) (s : Part000.St),
        (b = none ∨ (∃ v, b = some v ∧ ∀ t, v ≠ .vstr t) ∨
          (∃ t, b = some (.vstr t) ∧ t.length > 500)) →
        (Part000.postMessage b s).1.status = 400
      ∧ (∃ e, (Part000.postMessage b s).1 = .invalid e)
      ∧ (Part000.postMessage b s).2 = s)
  ∧ (∀ (b f : Option JsVal) (s : Part001.St), jsOptFalsy b = true →
        Part001.postMessage b f s = (.invalid false "本文(body)は必須です", s))
  ∧ (∀ (v : JsVal) (f : Option JsVal) (s : Part001.St),
        jsOptFalsy (some v) = false → (∀ t, v ≠ .vstr t) →
        (Part001.postMessage (some v) f s).1.status = 500
      ∧ (Part001.postMessage (some v) f s).2 = s) := by
  refine ⟨?_, ?_, ?_, ?_⟩
  · intro b s hb
    rcases hb with rfl | ⟨v, rfl, hv⟩ | ⟨t, rfl, ht⟩
    · exact ⟨rfl, ⟨_, rfl⟩, rfl⟩
    · rcases v with t | n | bb | _
      · exact absurd rfl (hv t)
      · exact ⟨rfl, ⟨_, rfl⟩, rfl⟩
      · exact ⟨rfl, ⟨_, rfl⟩, rfl⟩
      · exact ⟨rfl, ⟨_, rfl⟩, rfl⟩
    · by_cases hte : t = ""
      · subst hte; exact absurd ht (by decide)
      · simp only [ServerJs.postMessage]
        rw [if_neg hte, if_pos (Or.inr ht)]
        exact ⟨rfl, ⟨_, rfl⟩, rfl⟩
  · intro b s hb
    rcases hb with rfl | ⟨v, rfl, hv⟩ | ⟨t, rfl, ht⟩
    · exact ⟨rfl, ⟨_, rfl⟩, rfl⟩
    · rcases v with t | n | bb | _
      · exact absurd rfl (hv t)
      · exact ⟨rfl, ⟨_, rfl⟩, rfl⟩
      · exact ⟨rfl, ⟨_, rfl⟩, rfl⟩
      · exact ⟨rfl, ⟨_, rfl⟩, rfl⟩
    · by_cases hte : t = ""
      · subst hte; exact absurd ht (by decide)
      · simp only [Part000.postMessage]
        rw [if_neg hte, if_pos (Or.inr ht)]
        exact ⟨rfl, ⟨_, rfl⟩, rfl⟩
  · intro b f s hb
    rcases b with _ | v
    · rfl
    rcases v with t | n | bb | _
    · simp only [jsOptFalsy, JsVal.falsy, beq_iff_eq] at hb
      subst hb
      rfl
    · simp only [jsOptFalsy, JsVal.falsy] at hb
      simp only [Part001.postMessage, JsVal.falsy]
      rw [if_pos hb]
    · simp only [jsOptFalsy, JsVal.falsy] at hb
      simp only [Part001.postMessage, JsVal.falsy]
      rw [if_pos hb]
    · rfl
  · intro v f s hb hv
    rcases v with t | n | bb | _
    · exact absurd rfl (hv t)
    · simp only [jsOptFalsy, JsVal.falsy] at hb
      simp only [Part001.postMessage, JsVal.falsy]
      rw [if_neg (by simp [hb])]
      exact ⟨rfl, rfl⟩
    · simp only [jsOptFalsy, JsVal.falsy] at hb
      simp only [Part001.postMessage, JsVal.falsy]
      rw [if_neg (by simp [hb])]
      exact ⟨rfl, rfl⟩
    · simp [jsOptFalsy, JsVal.falsy] at hb

/-- C3 witness: the amended theorem applied to a boolean message field in
`server.js` (400, unchanged store) and to the numeric message field 5 in
`part_001` (500, unchanged store). -/
theorem C3_amended_witness :
    ((ServerJs.postMessage (some (.vbool true)) ServerJs.init).1.status = 400
      ∧ (ServerJs.postMessage (some (.vbool true)) ServerJs.init).2 =
          ServerJs.init)
  ∧ ((Part001.postMessage (some (.vnum 5)) none Part001.init).1.status = 500
      ∧ (Part001.postMessage (some (.vnum 5)) none Part001.init).2 =
          Part001.init) :=
  ⟨⟨(C3_amended_theorem.1 (some (.vbool true)) ServerJs.init
      (Or.inr (Or.inl ⟨_, rfl, fun t h => JsVal.noConfusion h⟩))).1,
    (C3_amended_theorem.1 (some (.vbool true)) ServerJs.init
      (Or.inr (Or.inl ⟨_, rfl, fun t h => JsVal.noConfusion h⟩))).2.2⟩,
   C3_amended_theorem.2.2.2 (.vnum 5) none Part001.init (by decide)
      (fun t h => JsVal.noConfusion h)⟩

/-! ## Claim C4 -/

/-- C4: stored messages are immutable.  After any operation, every message
present in the store is either literally a message of the previous store
(all fields unchanged) or the single freshly created message of this
operation (carrying the fresh id); operations only add or remove whole
messages. -/
theorem C4_theorem :
    (∀ (op : ServerJs.Op) (s : ServerJs.St) (m : ServerJs.Message),
        m ∈ (ServerJs.step op s).messages →
        m ∈ s.messages ∨ m.id = s.nextId)
  ∧ (∀ (op : Part001.Op) (s : Part001.St) (m : Part001.Message),
        m ∈ (Part001.step op s).messages →
        m ∈ s.messages ∨ m.id = s.nextId) := by
  constructor
  · intro op s m hm
    rcases ServerJs.step_state op s with heq | ⟨msg, _, hid, heq⟩ | ⟨i, heq⟩ <;>
      rw [heq] at hm
    · exact Or.inl hm
    · rcases List.mem_cons.mp ((List.take_sublist _ _).subset hm) with rfl | hm
      · exact Or.inr hid
      · exact Or.inl hm
    · exact Or.inl ((List.eraseIdx_sublist _ _).subset hm)
  · intro op s m hm
    rcases Part001.stepState1 op s with heq | ⟨msg, hid, heq⟩ | ⟨i, heq⟩ <;>
      rw [heq] at hm
    · exact Or.inl hm
    · rcases List.mem_append.mp hm with hm | hm
      · exact Or.inl hm
      · rcases List.mem_singleton.mp hm with rfl
        exact Or.inr hid
    · exact Or.inl (List.filter_sublist _ |>.subset hm)

/-- C4 witness: after one successful send into the startup state of
`server.js`, the message found in the store is the freshly created one. -/
theorem C4_witness :
    ({ id := 0, type := "text", message := "hi", file := none,
       timestamp := 0 } : ServerJs.Message) ∈ ServerJs.init.messages
  ∨ ({ id := 0, type := "text", message := "hi", file := none,
       timestamp := 0 } : ServerJs.Message).id = ServerJs.init.nextId :=
  C4_theorem.1 (ServerJs.Op.post (some (.vstr "hi"))) ServerJs.init
    { id := 0, type := "text", message := "hi", file := none, timestamp := 0 }
    (by decide)

/-! ## Claim C5 -/

/-- C5: the read-only query endpoints — the message listing and the
statistics endpoint (and `part_001`'s full listing) — leave the store state
completely unchanged. -/
theorem C5_theorem :
    (∀ (l o si : Option Nat) (s : ServerJs.St),
        ServerJs.step (.get l o si) s = s)
  ∧ (∀ s : ServerJs.St, ServerJs.step .stats s = s)
  ∧ (∀ (l o : Option Nat) (s : Part000.St), Part000.step (.get l o) s = s)
  ∧ (∀ s : Part000.St, Part000.step .stats s = s)
  ∧ (∀ s : Part001.St, Part001.step .getAll s = s) :=
  ⟨fun _ _ _ _ => rfl, fun _ => rfl, fun _ _ _ => rfl, fun _ => rfl,
   fun _ => rfl⟩

/-! ## Claim C6 -/

/-- C6: a delete for an id absent from the store is answered 404 with a
string error field and leaves the store unchanged; a delete for a present id
removes the matching message (in `server.js`, the first match; in
`part_001`, every message with that id) and is answered with success. -/
theorem C6_theorem :
    (∀ (i : Nat) (s : ServerJs.St), (∀ m ∈ s.messages, m.id ≠ i) →
        (ServerJs.deleteMessage i s).1 =
            .notFound "メッセージが見つかりません"
      ∧ (ServerJs.deleteMessage i s).1.status = 404
      ∧ (ServerJs.deleteMessage i s).2 = s)
  ∧ (∀ (i : Nat) (s : ServerJs.St), (∃ m ∈ s.messages, m.id = i) →
        (ServerJs.deleteMessage i s).1 =
            .removed true "メッセージが削除されました"
      ∧ ∃ l1 mm l2, s.messages = l1 ++ mm :: l2 ∧ mm.id = i ∧
          (∀ y ∈ l1, y.id ≠ i) ∧
          (ServerJs.deleteMessage i s).2.messages = l1 ++ l2)
  ∧ (∀ (i : Nat) (s : Part001.St), (∀ m ∈ s.messages, m.id ≠ i) →
        (Part001.deleteMessage i s).1 =
            .notFound false "メッセージが見つかりません"
      ∧ (Part001.deleteMessage i s).1.status = 404
      ∧ (Part001.deleteMessage i s).2 = s)
  ∧ (∀ (i : Nat) (s : Part001.St), (∃ m ∈ s.messages, m.id = i) →
        (Part001.deleteMessage i s).1 = .ok true
      ∧ (Part001.deleteMessage i s).2.messages =
          s.messages.filter (fun m => m.id != i)) := by
  refine ⟨?_, ?_, ?_, ?_⟩
  · intro i s h
    have hfi : s.messages.findIdx? (fun m => m.id == i) = none :=
      List.findIdx?_eq_none_iff.mpr
        (fun m hm => beq_eq_false_iff_ne.mpr (h m hm))
    unfold ServerJs.deleteMessage
    rw [hfi]
    exact ⟨rfl, rfl, rfl⟩
  · intro i s h
    have h' : ∃ x ∈ s.messages, (fun (m : ServerJs.Message) => m.id == i) x
        = true := by
      rcases h with ⟨m, hm, hid⟩
      exact ⟨m, hm, by simp [hid]⟩
    rcases findIdx_erase_split _ h' with
      ⟨j, l1, x, l2, hfind, hsplit, hpx, hl1, herase⟩
    unfold ServerJs.deleteMessage
    rw [hfind]
    refine ⟨rfl, l1, x, l2, hsplit, by simpa using hpx, ?_, by simpa using herase⟩
    intro y hy
    simpa using hl1 y hy
  · intro i s h
    have hkeep : s.messages.filter (fun m => m.id != i) = s.messages :=
      List.filter_eq_self.mpr (fun m hm => by simpa using h m hm)
    unfold Part001.deleteMessage
    rw [hkeep, if_pos rfl]
    exact ⟨rfl, rfl, rfl⟩
  · intro i s h
    have hlt : (s.messages.filter (fun m => m.id != i)).length <
        s.messages.length := by
      apply List.length_filter_lt_length_iff_exists.mpr
      rcases h with ⟨m, hm, hid⟩
      exact ⟨m, hm, by simp [hid]⟩
    unfold Part001.deleteMessage
    rw [if_neg (Nat.ne_of_lt hlt)]
    exact ⟨rfl, rfl⟩

/-- C6 witness: deleting the sole stored message (id 0) of a store obtained
from one successful send is answered with success, and deleting an absent id
is answered 404 with the store unchanged. -/
theorem C6_witness :
    (ServerJs.deleteMessage 0 (ServerJs.sendAll ["a"] ServerJs.init)).1 =
        .removed true "メッセージが削除されました"
  ∧ (ServerJs.deleteMessage 9 (ServerJs.sendAll ["a"] ServerJs.init)).2 =
      ServerJs.sendAll ["a"] ServerJs.init
  ∧ (Part001.deleteMessage 0 (Part001.sendAll ["a"] Part001.init)).1 =
      .ok true :=
  ⟨(C6_theorem.2.1 0 (ServerJs.sendAll ["a"] ServerJs.init) (by decide)).1,
   (C6_theorem.1 9 (ServerJs.sendAll ["a"] ServerJs.init) (by decide)).2.2,
   (C6_theorem.2.2.2 0 (Part001.sendAll ["a"] Part001.init) (by decide)).1⟩

/-! ## Claim C7 -/

/-- C7: a message send passing validation is answered 201 with a payload
reporting success and carrying the id of the newly created message, and that
message is in the store afterwards. -/
theorem C7_theorem :
    (∀ (m : String) (s : ServerJs.St), ServerJs.validText m →
        ServerJs.postMessage (some (.vstr m)) s =
          (.created true "メッセージが送信されました"
            (ServerJs.newTextMessage s m).id (ServerJs.newTextMessage s m),
           { messages :=
               (ServerJs.newTextMessage s m :: s.messages).take 1000,
             nextId := s.nextId + 1, clock := s.clock + 1 })
      ∧ (ServerJs.postMessage (some (.vstr m)) s).1.status = 201
      ∧ ServerJs.newTextMessage s m ∈
          (ServerJs.postMessage (some (.vstr m)) s).2.messages)
  ∧ (∀ (m : String) (s : Part000.St), Part000.validText m →
        Part000.postMessage (some (.vstr m)) s =
          (.created true "メッセージが送信されました"
            (Part000.newTextMessage s m).id,
           { messages :=
               (Part000.newTextMessage s m :: s.messages).take 1000,
             nextId := s.nextId + 1, clock := s.clock + 1 })
      ∧ (Part000.postMessage (some (.vstr m)) s).1.status = 201
      ∧ Part000.newTextMessage s m ∈
          (Part000.postMessage (some (.vstr m)) s).2.messages)
  ∧ (∀ (b : String) (f : Option JsVal) (fm : String) (s : Part001.St),
        jsTrim b ≠ "" → Part001.fromValue f = some fm →
        Part001.postMessage (some (.vstr b)) f s =
          (.created true (Part001.mkMessage s fm b),
           { messages := s.messages ++ [Part001.mkMessage s fm b],
             nextId := s.nextId + 1, clock := s.clock + 1 })
      ∧ (Part001.postMessage (some (.vstr b)) f s).1.status = 201
      ∧ Part001.mkMessage s fm b ∈
          (Part001.postMessage (some (.vstr b)) f s).2.messages) := by
  refine ⟨?_, ?_, ?_⟩
  · intro m s hv
    obtain ⟨h1, h2, h3⟩ := hv
    have hp := ServerJs.post_success m s h1 h2 h3
    refine ⟨hp, by rw [hp]; rfl, ?_⟩
    rw [hp]
    exact mem_take_head _ _ (by decide)
  · intro m s hv
    obtain ⟨h1, h2, h3⟩ := hv
    have hp := Part000.postSuccess0 m s h1 h2 h3
    refine ⟨hp, by rw [hp]; rfl, ?_⟩
    rw [hp]
    exact mem_take_head _ _ (by decide)
  · intro b f fm s hb hf
    have hp := Part001.postSuccess1 b f fm s hb hf
    refine ⟨hp, by rw [hp]; rfl, ?_⟩
    rw [hp]
    exact List.mem_append.mpr (Or.inr (List.mem_singleton.mpr rfl))

/-- C7 witness: the theorem applied to the concrete valid send "hi" in all
three variants. -/
theorem C7_witness :
    ServerJs.newTextMessage ServerJs.init "hi" ∈
        (ServerJs.postMessage (some (.vstr "hi")) ServerJs.init).2.messages
  ∧ Part000.newTextMessage Part000.init "hi" ∈
        (Part000.postMessage (some (.vstr "hi")) Part000.init).2.messages
  ∧ Part001.mkMessage Part001.init "自分" "hi" ∈
        (Part001.postMessage (some (.vstr "hi")) none Part001.init).2.messages :=
  ⟨(C7_theorem.1 "hi" ServerJs.init (by decide)).2.2,
   (C7_theorem.2.1 "hi" Part000.init (by decide)).2.2,
   (C7_theorem.2.2 "hi" none "自分" Part001.init (by decide) (by decide)).2.2⟩

/-! ## Claim C8 -/

/-- C8: in the capped variants (`server.js` and `part_000`) every operation
— plain-text sends, file uploads, reads and deletes alike — preserves the
bound of at most 1000 stored messages; every successful send, whether the
plain-text `POST /api/messages` or the upload `POST /api/messages/upload`,
leaves exactly the first 1000 entries of the new message pushed onto the old
store (the newest-first prefix), and, in any reachable (newest-first sorted)
state, every message discarded by that cap has a timestamp no later than
every retained one — the discarded messages are exactly the oldest. -/
theorem C8_theorem :
    (∀ (op : ServerJs.Op) (s : ServerJs.St), s.messages.length ≤ 1000 →
        (ServerJs.step op s).messages.length ≤ 1000)
  ∧ (∀ (op : Part000.Op) (s : Part000.St), s.messages.length ≤ 1000 →
        (Part000.step op s).messages.length ≤ 1000)
  ∧ (∀ (m : String) (s : ServerJs.St), ServerJs.validText m →
        (ServerJs.postMessage (some (.vstr m)) s).2.messages =
          (ServerJs.newTextMessage s m :: s.messages).take 1000)
  ∧ (∀ (f : ServerJs.UploadFile) (mo : Option String) (s : ServerJs.St),
        (mo.getD "").length ≤ 500 →
        ServerJs.containsInappropriate (mo.getD "") = false →
        (ServerJs.uploadMessage (some f) mo s).2.messages =
          (ServerJs.newUploadMessage s f mo :: s.messages).take 1000)
  ∧ (∀ (m : String) (s : Part000.St), Part000.validText m →
        (Part000.postMessage (some (.vstr m)) s).2.messages =
          (Part000.newTextMessage s m :: s.messages).take 1000)
  ∧ (∀ (m : String) (s : ServerJs.St), ServerJs.Inv s →
        ∀ d ∈ (ServerJs.newTextMessage s m :: s.messages).drop 1000,
        ∀ r ∈ (ServerJs.newTextMessage s m :: s.messages).take 1000,
          d.timestamp ≤ r.timestamp)
  ∧ (∀ (f : ServerJs.UploadFile) (mo : Option String) (s : ServerJs.St),
        ServerJs.Inv s →
        ∀ d ∈ (ServerJs.newUploadMessage s f mo :: s.messages).drop 1000,
        ∀ r ∈ (ServerJs.newUploadMessage s f mo :: s.messages).take 1000,
          d.timestamp ≤ r.timestamp)
  ∧ (∀ (m : String) (s : Part000.St), Part000.Inv s →
        ∀ d ∈ (Part000.newTextMessage s m :: s.messages).drop 1000,
        ∀ r ∈ (Part000.newTextMessage s m :: s.messages).take 1000,
          d.timestamp ≤ r.timestamp) := by
  refine ⟨?_, ?_, ?_, ?_, ?_, ?_, ?_, ?_⟩
  · intro op s h
    rcases ServerJs.step_state op s with heq | ⟨msg, _, _, heq⟩ | ⟨i, heq⟩ <;>
      rw [heq]
    · exact h
    · exact List.length_take_le _ _
    · exact le_trans (List.Sublist.length_le (List.eraseIdx_sublist _ _)) h
  · intro op s h
    rcases Part000.stepState0 op s with heq | ⟨msg, _, _, heq⟩ <;> rw [heq]
    · exact h
    · exact List.length_take_le _ _
  · intro m s hv
    obtain ⟨h1, h2, h3⟩ := hv
    rw [ServerJs.post_success m s h1 h2 h3]
    rfl
  · intro f mo s h1 h2
    rw [ServerJs.upload_success f mo s h1 h2]
    rfl
  · intro m s hv
    obtain ⟨h1, h2, h3⟩ := hv
    rw [Part000.postSuccess0 m s h1 h2 h3]
    rfl
  · intro m s hInv
    obtain ⟨hs, hc⟩ := hInv
    have hcons : sortedByDesc ServerJs.Message.timestamp
        (ServerJs.newTextMessage s m :: s.messages) :=
      List.pairwise_cons.mpr ⟨fun x hx => le_of_lt (hc x hx), hs⟩
    exact pairwise_take_drop hcons 1000
  · intro f mo s hInv
    obtain ⟨hs, hc⟩ := hInv
    have hcons : sortedByDesc ServerJs.Message.timestamp
        (ServerJs.newUploadMessage s f mo :: s.messages) :=
      List.pairwise_cons.mpr ⟨fun x hx => le_of_lt (hc x hx), hs⟩
    exact pairwise_take_drop hcons 1000
  · intro m s hInv
    obtain ⟨hs, hc⟩ := hInv
    have hcons : sortedByDesc Part000.Message.timestamp
        (Part000.newTextMessage s m :: s.messages) :=
      List.pairwise_cons.mpr ⟨fun x hx => le_of_lt (hc x hx), hs⟩
    exact pairwise_take_drop hcons 1000

/-- C8 witness: the bound at a concrete upload operation, and the cap shape
at the concrete text send "a" and the concrete upload of "cat.jpg", all into
the startup states. -/
theorem C8_witness :
    (ServerJs.step
        (ServerJs.Op.upload (some ⟨"u1", "cat.jpg", 10, "image/jpeg"⟩) none)
        ServerJs.init).messages.length ≤ 1000
  ∧ (ServerJs.postMessage (some (.vstr "a")) ServerJs.init).2.messages =
      (ServerJs.newTextMessage ServerJs.init "a" ::
        ServerJs.init.messages).take 1000
  ∧ (ServerJs.uploadMessage (some ⟨"u1", "cat.jpg", 10, "image/jpeg"⟩) none
        ServerJs.init).2.messages =
      (ServerJs.newUploadMessage ServerJs.init
          ⟨"u1", "cat.jpg", 10, "image/jpeg"⟩ none ::
        ServerJs.init.messages).take 1000
  ∧ (Part000.postMessage (some (.vstr "a")) Part000.init).2.messages =
      (Part000.newTextMessage Part000.init "a" ::
        Part000.init.messages).take 1000 :=
  ⟨C8_theorem.1
      (ServerJs.Op.upload (some ⟨"u1", "cat.jpg", 10, "image/jpeg"⟩) none)
      ServerJs.init (by decide),
   C8_theorem.2.2.1 "a" ServerJs.init (by decide),
   C8_theorem.2.2.2.1 ⟨"u1", "cat.jpg", 10, "image/jpeg"⟩ none ServerJs.init
      (by decide) (by decide),
   C8_theorem.2.2.2.2.1 "a" Part000.init (by decide)⟩

/-! ## Claim C9 -/

/-- C9: a plain-text send whose text contains a banned word — "spam"
case-insensitively in `server.js`; "spam" or "test123" in `part_000` — is
answered 400 with the store unchanged, and a send whose text contains no
banned word is never answered with the inappropriate-content rejection. -/
theorem C9_theorem :
    (∀ (m : String) (s : ServerJs.St),
        strIncludes (toLowerCase m) "spam" = true →
        (ServerJs.postMessage (some (.vstr m)) s).1.status = 400
      ∧ (ServerJs.postMessage (some (.vstr m)) s).2 = s)
  ∧ (∀ (m : String) (s : ServerJs.St),
        strIncludes (toLowerCase m) "spam" = false →
        (ServerJs.postMessage (some (.vstr m)) s).1 ≠
          .invalid ServerJs.inappropriateError)
  ∧ (∀ (m : String) (s : Part000.St),
        (strIncludes (toLowerCase m) "spam" = true ∨
          strIncludes (toLowerCase m) "test123" = true) →
        (Part000.postMessage (some (.vstr m)) s).1.status = 400
      ∧ (Part000.postMessage (some (.vstr m)) s).2 = s)
  ∧ (∀ (m : String) (s : Part000.St),
        strIncludes (toLowerCase m) "spam" = false →
        strIncludes (toLowerCase m) "test123" = false →
        (Part000.postMessage (some (.vstr m)) s).1 ≠
          .invalid Part000.inappropriateError) := by
  refine ⟨?_, ?_, ?_, ?_⟩
  · intro m s h
    have hmne : m ≠ "" := by
      intro he; subst he; exact absurd h (by decide)
    simp only [ServerJs.postMessage]
    rw [if_neg hmne]
    by_cases hlen : m.length < 1 ∨ m.length > 2000
    · rw [if_pos hlen]; exact ⟨rfl, rfl⟩
    · have hban : ServerJs.containsInappropriate m = true := by
        simp [ServerJs.containsInappropriate, hmne, h]
      rw [if_neg hlen, if_pos hban]
      exact ⟨rfl, rfl⟩
  · intro m s h
    simp only [ServerJs.postMessage]
    split_ifs with h1 h2 h3
    · intro hc
      injection hc with he
      exact absurd he (by decide)
    · intro hc
      injection hc with he
      exact absurd he (by decide)
    · exfalso
      have h3' : strIncludes (toLowerCase m) "spam" = true := by
        simpa [ServerJs.containsInappropriate, h1] using h3
      rw [h3'] at h
      exact Bool.noConfusion h
    · intro hc
      exact ServerJs.PostResp.noConfusion hc
  · intro m s h
    have hmne : m ≠ "" := by
      intro he; subst he
      rcases h with h | h <;> exact absurd h (by decide)
    simp only [Part000.postMessage]
    rw [if_neg hmne]
    by_cases hlen : m.length < 1 ∨ m.length > 500
    · rw [if_pos hlen]; exact ⟨rfl, rfl⟩
    · have hban : Part000.containsInappropriate m = true := by
        rcases h with h | h <;> simp [Part000.containsInappropriate, h]
      rw [if_neg hlen, if_pos hban]
      exact ⟨rfl, rfl⟩
  · intro m s h1 h2
    simp only [Part000.postMessage]
    split_ifs with hb1 hb2 hb3
    · intro hc
      injection hc with he
      exact absurd he (by decide)
    · intro hc
      injection hc with he
      exact absurd he (by decide)
    · exfalso
      simp only [Part000.containsInappropriate, List.any_cons, List.any_nil,
        Bool.or_false, Bool.or_eq_true] at hb3
      rcases hb3 with hb3 | hb3
      · rw [hb3] at h1; exact Bool.noConfusion h1
      · rw [hb3] at h2; exact Bool.noConfusion h2
    · intro hc
      exact Part000.PostResp.noConfusion hc

/-- C9 witness: the banned sends "I love SPAM" (`server.js`) and "xTest123"
(`part_000`) are rejected with an unchanged store, and the clean send
"hello" is not answered with the inappropriate-content rejection. -/
theorem C9_witness :
    ((ServerJs.postMessage (some (.vstr "I love SPAM")) ServerJs.init).1.status
        = 400
      ∧ (ServerJs.postMessage (some (.vstr "I love SPAM")) ServerJs.init).2 =
          ServerJs.init)
  ∧ ((Part000.postMessage (some (.vstr "xTest123")) Part000.init).1.status
        = 400
      ∧ (Part000.postMessage (some (.vstr "xTest123")) Part000.init).2 =
          Part000.init)
  ∧ (ServerJs.postMessage (some (.vstr "hello")) ServerJs.init).1 ≠
      .invalid ServerJs.inappropriateError :=
  ⟨C9_theorem.1 "I love SPAM" ServerJs.init (by decide),
   C9_theorem.2.2.1 "xTest123" Part000.init (Or.inr (by decide)),
   C9_theorem.2.1 "hello" ServerJs.init (by decide)⟩

/-! ## Claim C10 -/

/-- C10: the statistics endpoint reports `null` for both `oldestMessage` and
`newestMessage` exactly when the store is empty; on a nonempty store that is
newest-first sorted — an invariant that holds in the startup state and is
preserved by every operation — `newestMessage` is the maximal (most
recently posted) retained timestamp and `oldestMessage` the minimal
(earliest posted) retained timestamp, both attained by stored messages. -/
theorem C10_theorem :
    (∀ s : ServerJs.St,
        ((ServerJs.getStats s).1.newestMessage = none ∧
          (ServerJs.getStats s).1.oldestMessage = none) ↔ s.messages = [])
  ∧ (∀ s : ServerJs.St,
        sortedByDesc ServerJs.Message.timestamp s.messages →
        s.messages ≠ [] →
        ∃ tN tO, (ServerJs.getStats s).1.newestMessage = some tN
          ∧ (ServerJs.getStats s).1.oldestMessage = some tO
          ∧ (∃ m ∈ s.messages, m.timestamp = tN)
          ∧ (∃ m ∈ s.messages, m.timestamp = tO)
          ∧ ∀ m ∈ s.messages, tO ≤ m.timestamp ∧ m.timestamp ≤ tN)
  ∧ (ServerJs.Inv ServerJs.init ∧
      ∀ (op : ServerJs.Op) (s : ServerJs.St), ServerJs.Inv s →
        ServerJs.Inv (ServerJs.step op s))
  ∧ (∀ s : Part000.St,
        ((Part000.getStats s).1.newestMessage = none ∧
          (Part000.getStats s).1.oldestMessage = none) ↔ s.messages = [])
  ∧ (∀ s : Part000.St,
        sortedByDesc Part000.Message.timestamp s.messages →
        s.messages ≠ [] →
        ∃ tN tO, (Part000.getStats s).1.newestMessage = some tN
          ∧ (Part000.getStats s).1.oldestMessage = some tO
          ∧ (∃ m ∈ s.messages, m.timestamp = tN)
          ∧ (∃ m ∈ s.messages, m.timestamp = tO)
          ∧ ∀ m ∈ s.messages, tO ≤ m.timestamp ∧ m.timestamp ≤ tN)
  ∧ (Part000.Inv Part000.init ∧
      ∀ (op : Part000.Op) (s : Part000.St), Part000.Inv s →
        Part000.Inv (Part000.step op s)) := by
  refine ⟨?_, ?_, ⟨?_, ServerJs.inv_step⟩, ?_, ?_, ⟨?_, Part000.invStep0⟩⟩
  · intro s
    rcases s with ⟨msgs, nid, clk⟩
    cases msgs with
    | nil => simp [ServerJs.getStats]
    | cons a t => simp [ServerJs.getStats]
  · intro s hsort hne
    rcases s with ⟨msgs, nid, clk⟩
    cases msgs with
    | nil => exact absurd rfl hne
    | cons a t =>
      refine ⟨a.timestamp, ((a :: t).getLast (by simp)).timestamp,
        rfl, ?_, ⟨a, List.mem_cons_self _ _, rfl⟩,
        ⟨_, List.getLast_mem _, rfl⟩, ?_⟩
      · simp only [ServerJs.getStats]
        rw [List.getLast?_eq_getLast (a :: t) (by simp)]
        rfl
      · intro m hm
        exact ⟨sortedByDesc_getLast_min hsort (by simp) m hm,
          sortedByDesc_head_max hsort m hm⟩
  · exact ⟨List.Pairwise.nil, fun m hm => absurd hm (List.not_mem_nil m)⟩
  · intro s
    rcases s with ⟨msgs, nid, clk⟩
    cases msgs with
    | nil => simp [Part000.getStats]
    | cons a t => simp [Part000.getStats]
  · intro s hsort hne
    rcases s with ⟨msgs, nid, clk⟩
    cases msgs with
    | nil => exact absurd rfl hne
    | cons a t =>
      refine ⟨a.timestamp, ((a :: t).getLast (by simp)).timestamp,
        rfl, ?_, ⟨a, List.mem_cons_self _ _, rfl⟩,
        ⟨_, List.getLast_mem _, rfl⟩, ?_⟩
      · simp only [Part000.getStats]
        rw [List.getLast?_eq_getLast (a :: t) (by simp)]
        rfl
      · intro m hm
        exact ⟨sortedByDesc_getLast_min hsort (by simp) m hm,
          sortedByDesc_head_max hsort m hm⟩
  · exact ⟨List.Pairwise.nil, fun m hm => absurd hm (List.not_mem_nil m)⟩

/-- C10 witness: the statistics of the concrete store holding the sends "a"
then "b" (timestamps 0 and 1, listed newest-first), together with the
empty-store case of the startup state. -/
theorem C10_witness :
    (∃ tN tO,
      (ServerJs.getStats
          (ServerJs.sendAll ["a", "b"] ServerJs.init)).1.newestMessage =
        some tN
      ∧ (ServerJs.getStats
          (ServerJs.sendAll ["a", "b"] ServerJs.init)).1.oldestMessage =
        some tO
      ∧ (∃ m ∈ (ServerJs.sendAll ["a", "b"] ServerJs.init).messages,
          m.timestamp = tN)
      ∧ (∃ m ∈ (ServerJs.sendAll ["a", "b"] ServerJs.init).messages,
          m.timestamp = tO)
      ∧ ∀ m ∈ (ServerJs.sendAll ["a", "b"] ServerJs.init).messages,
          tO ≤ m.timestamp ∧ m.timestamp ≤ tN)
  ∧ (((ServerJs.getStats ServerJs.init).1.newestMessage = none ∧
      (ServerJs.getStats ServerJs.init).1.oldestMessage = none) ↔
        ServerJs.init.messages = []) :=
  ⟨C10_theorem.2.1 (ServerJs.sendAll ["a", "b"] ServerJs.init) (by decide)
      (by decide),
   C10_theorem.1 ServerJs.init⟩
